import Mathlib

/-!
Verification of the content-negotiation and CSV-streaming core of
`runtimes/eoapi/stac/eoapi/stac/client.py`.

The Python functions `accept_media_type`, `_create_csv_rows`,
`items_to_csv_rows` and the response-header logic of
`PgSTACClient.landing_page` / `get_search` / `post_search` are embedded as
executable Lean definitions.  Machine strings are Lean `String`s; the Python
string operations the code relies on (`str.split`, `str.replace`, `float()`)
are re-implemented structurally so that every definition evaluates in the
kernel.  Python exceptions are modelled by the `PyErr` error type together
with `Except` / explicit error fields.

Model boundaries, stated once here:
* `float()` is modelled on finite decimal literals (optional sign, digits,
  decimal point, exponent).  Non-finite literals (`inf`, `nan`) and PEP-515
  underscore separators are outside the model.  A parsed float is modelled
  exactly as the scaled decimal `num / den` (`PyQ`); equality, ordering and
  truthiness of qualities are value equality / ordering of those fractions,
  which agrees with float semantics on the decimals involved.
* `parse_geometry_obj(...).wkt` comes from the external `geojson_pydantic`
  library; a parsed geometry object is modelled through that interface as an
  opaque value carrying its WKT string.
* The external `stac_pydantic.shared.MimeTypes` enumeration is modelled
  restricted to the members this repository references.
-/

instance [DecidableEq ε] [DecidableEq α] : DecidableEq (Except ε α) := fun x y =>
  match x, y with
  | .error a, .error b =>
    if h : a = b then .isTrue (by rw [h])
    else .isFalse (fun c => h (by injection c))
  | .error _, .ok _ => .isFalse (fun c => Except.noConfusion c)
  | .ok _, .error _ => .isFalse (fun c => Except.noConfusion c)
  | .ok a, .ok b =>
    if h : a = b then .isTrue (by rw [h])
    else .isFalse (fun c => h (by injection c))

/-- Python exceptions that the embedded code can raise. -/
inductive PyErr where
  /-- `KeyError`, e.g. `MimeTypes[f]` with an unknown name, or `f["geometry"]`
  on a mapping without that key. -/
  | keyError
  /-- `ValueError`, e.g. `dict([...])` on a malformed parameter, or
  `csv.DictWriter.writerow` on a dict with keys outside the fieldnames. -/
  | valueError
  /-- `RuntimeError`: a `StopIteration` escaping a generator frame is
  converted to `RuntimeError` by Python (PEP 479). -/
  | runtimeError
  /-- A pydantic `ValidationError`, e.g. `parse_geometry_obj(None)`. -/
  | validationError
deriving DecidableEq, Repr

/-- A parsed Python float, kept as the exact scaled decimal `num / den`.
Every value the parser builds has a positive denominator (a power of ten). -/
abbrev PyQ := Int × Nat

/-- Float equality `a == b`, by cross multiplication. -/
def pyqEq (a b : PyQ) : Bool := a.1 * (b.2 : Int) = b.1 * (a.2 : Int)

/-- Float order `a <= b`, by cross multiplication. -/
def pyqLe (a b : PyQ) : Bool := a.1 * (b.2 : Int) ≤ b.1 * (a.2 : Int)

/-- Float order `a < b`, by cross multiplication. -/
def pyqLt (a b : PyQ) : Bool := a.1 * (b.2 : Int) < b.1 * (a.2 : Int)

/-- Python `str.split(sep)` for a one-character separator, on character
lists: splits at every occurrence, keeping empty pieces
(`"a,,b" → ["a","","b"]`, `"" → [""]`). -/
def splitChar (c : Char) : List Char → List (List Char)
  | [] => [[]]
  | x :: xs =>
    let r := splitChar c xs
    if x = c then [] :: r
    else
      match r with
      | [] => [[x]]
      | y :: ys => (x :: y) :: ys

/-- Python `str.split(sep)` for a one-character separator, on `String`. -/
def pySplit (c : Char) (s : String) : List String :=
  (splitChar c s.toList).map String.mk

/-- Python `str.replace(" ", "")`: drop every space character. -/
def stripSpaces (s : String) : String :=
  String.mk (s.toList.filter (fun c => c ≠ ' '))

/-- Numeric value of a digit list (most significant first). -/
def digitsVal (l : List Char) : Nat :=
  l.foldl (fun a c => 10 * a + (c.toNat - 48)) 0

/-- Exponent part of a Python float literal: optional sign, then a nonempty
digit string. -/
def parseExp (l : List Char) : Option Int :=
  match l with
  | [] => none
  | '+' :: ds =>
    if ds ≠ [] ∧ ds.all (·.isDigit) then some (digitsVal ds : Int) else none
  | '-' :: ds =>
    if ds ≠ [] ∧ ds.all (·.isDigit) then some (-(digitsVal ds : Int)) else none
  | ds =>
    if ds.all (·.isDigit) then some (digitsVal ds : Int) else none

/-- Unsigned mantissa of a Python float literal: digits with at most one
decimal point, at least one digit overall (`"1"`, `"1."`, `".5"`): returns
the digit value and the number of fractional digits. -/
def parseUnsigned (l : List Char) : Option (Nat × Nat) :=
  match splitChar '.' l with
  | [ip] =>
    if ip ≠ [] ∧ ip.all (·.isDigit) then some (digitsVal ip, 0) else none
  | [ip, fp] =>
    if (ip ≠ [] ∨ fp ≠ []) ∧ ip.all (·.isDigit) ∧ fp.all (·.isDigit) then
      some (digitsVal (ip ++ fp), fp.length)
    else none
  | _ => none

/-- Assemble sign, mantissa, fractional length and exponent into the exact
fraction the float literal denotes. -/
def pyqOfParts (sgn : Int) (m : Nat) (fracLen : Nat) (e : Int) : PyQ :=
  if e ≥ 0 then (sgn * (m : Int) * (10 ^ e.toNat : Int), 10 ^ fracLen)
  else (sgn * (m : Int), 10 ^ fracLen * 10 ^ (-e).toNat)

/-- Python `float(s)` on finite decimal literals (see the model boundary in
the file header): `none` models `ValueError`. -/
def parsePyFloat (s : String) : Option PyQ :=
  let l := s.toList.map (fun c => if c = 'E' then 'e' else c)
  let sb : Int × List Char :=
    match l with
    | '+' :: r => (1, r)
    | '-' :: r => (-1, r)
    | r => (1, r)
  match splitChar 'e' sb.2 with
  | [m] => (parseUnsigned m).map (fun p => pyqOfParts sb.1 p.1 p.2 0)
  | [m, ex] =>
    match parseUnsigned m, parseExp ex with
    | some p, some e => some (pyqOfParts sb.1 p.1 p.2 e)
    | _, _ => none
  | _ => none

/-- The external `stac_pydantic.shared.MimeTypes` enumeration, restricted to
the members this repository references. -/
inductive MimeTypes where
  | json | geojson | jsonschema | openapi | html | text | xml | geojsonseq | csv
deriving DecidableEq, Repr

/-- The `.value` of each `MimeTypes` member (the media-type string). -/
def MimeTypes.value : MimeTypes → String
  | .json => "application/json"
  | .geojson => "application/geo+json"
  | .jsonschema => "application/schema+json"
  | .openapi => "application/vnd.oai.openapi+json;version=3.0"
  | .html => "text/html"
  | .text => "text/plain"
  | .xml => "application/xml"
  | .geojsonseq => "application/geo+json-seq"
  | .csv => "text/csv"

/-- Python `MimeTypes[name]`: enum lookup by member name; an unknown name
raises `KeyError`. -/
def MimeTypes.lookup (name : String) : Except PyErr MimeTypes :=
  if name = "json" then .ok .json
  else if name = "geojson" then .ok .geojson
  else if name = "jsonschema" then .ok .jsonschema
  else if name = "openapi" then .ok .openapi
  else if name = "html" then .ok .html
  else if name = "text" then .ok .text
  else if name = "xml" then .ok .xml
  else if name = "geojsonseq" then .ok .geojsonseq
  else if name = "csv" then .ok .csv
  else .error .keyError

/-- Python dict insertion: assigning to an existing key updates the value in
place (keeping the key's original position); a new key is appended. -/
def dictInsert (d : List (String × α)) (k : String) (v : α) : List (String × α) :=
  if d.any (fun p => p.1 = k) then
    d.map (fun p => if p.1 = k then (k, v) else p)
  else d ++ [(k, v)]

/-- Python `dict.get(k)`: `none` when the key is absent. -/
def dictGet (d : List (String × α)) (k : String) : Option α :=
  (d.find? (fun p => p.1 = k)).map (·.2)

/-- `dict([param.split("=") for param in params])` from `accept_media_type`:
each parameter must split on `"="` into exactly two pieces, otherwise the
`dict` constructor raises `ValueError`. -/
def parseParams : List String → Except PyErr (List (String × String))
  | [] => .ok []
  | p :: ps =>
    match pySplit '=' p with
    | [k, v] =>
      match parseParams ps with
      | .error e => .error e
      | .ok d => .ok (dictInsert d k v)
    | _ => .error .valueError

/-- One comma-separated entry of the `Accept` header (spaces already
stripped): returns its media-type name and quality.  Mirrors the body of the
first loop of `accept_media_type`: no parameters → quality `1`; a `q`
parameter is run through `float`, where a falsy (empty) value falls back to
`1.0` and a `ValueError` is mapped to quality `0`. -/
def entryParse (m : String) : Except PyErr (String × PyQ) :=
  match pySplit ';' m with
  | [name] => .ok (name, (1, 1))
  | name :: params =>
    match parseParams params with
    | .error e => .error e
    | .ok groups =>
      match dictGet groups "q" with
      | none => .ok (name, (1, 1))
      | some q =>
        if q = "" then .ok (name, (1, 1))
        else
          match parsePyFloat q with
          | some v => .ok (name, v)
          | none => .ok (name, (0, 1))
  | [] => .ok ("", (1, 1))

/-- The first loop of `accept_media_type`: builds the `accept_values` dict,
skipping entries whose quality is the falsy float `0`. -/
def acceptValuesGo : List String → List (String × PyQ) → Except PyErr (List (String × PyQ))
  | [], acc => .ok acc
  | m :: ms, acc =>
    match entryParse m with
    | .error e => .error e
    | .ok nq =>
      acceptValuesGo ms (if nq.2.1 = 0 then acc else dictInsert acc nq.1 nq.2)

/-- `accept_values` of `accept_media_type`: name → quality, in insertion
order, zero-quality entries dropped. -/
def acceptValues (accept : String) : Except PyErr (List (String × PyQ)) :=
  acceptValuesGo (pySplit ',' (stripSpaces accept)) []

/-- Insert a quality into a descending-sorted list (stable, like Python's
`sorted(..., reverse=True)`). -/
def insertDescPyQ (x : PyQ) : List PyQ → List PyQ
  | [] => [x]
  | y :: ys => if pyqLt y x then x :: y :: ys else y :: insertDescPyQ x ys

/-- Sort qualities in descending order. -/
def sortDescPyQ (l : List PyQ) : List PyQ := l.foldr insertDescPyQ []

/-- `set(accept_values.values())`: keep one representative per float value. -/
def dedupPyQ (l : List PyQ) : List PyQ :=
  l.foldl (fun acc x => if acc.any (fun y => pyqEq y x) then acc else acc ++ [x]) []

/-- `sorted(set(values), reverse=True)`: the distinct quality weights in
descending order. -/
def sortDescDedup (l : List PyQ) : List PyQ := sortDescPyQ (dedupPyQ l)

/-- The `media_preference` matrix of `accept_media_type`: quality groups in
descending quality order; within a group, names keep their `accept_values`
order. -/
def mediaPreference (vals : List (String × PyQ)) : List (PyQ × List String) :=
  (sortDescDedup (vals.map Prod.snd)).map
    (fun v => (v, (vals.filter (fun p => pyqEq p.2 v)).map Prod.fst))

/-- The selection loop of `accept_media_type`: first quality group (highest
first) in which some supported media type's `.value` occurs wins; within a
group the `mediatypes` list is scanned in declared order. -/
def selectFromGroups : List (PyQ × List String) → List MimeTypes → Option MimeTypes
  | [], _ => none
  | g :: gs, mediatypes =>
    match mediatypes.find? (fun media => g.2.contains media.value) with
    | some media => some media
    | none => selectFromGroups gs mediatypes

/-- Modelled from the spec: "iterate quality groups from highest to lowest;
within a group, iterate `supported` in its declared order and return the
first `MediaType` whose canonical token appears in the group's name set".
Takes the quality groups (already ordered highest first) as bare name
sets; to be compared with `selectFromGroups`. -/
def selectorSpecC5 : List (List String) → List MimeTypes → Option MimeTypes
  | [], _ => none
  | g :: gs, supported =>
    match supported.find? (fun mt => g.contains mt.value) with
    | some mt => some mt
    | none => selectorSpecC5 gs supported

/-- `accept_media_type(accept, mediatypes)` from `client.py`: parse the
header into `accept_values`, group by quality, scan the groups, and finally
fall back to `mediatypes[0]` when the literal key `"*"` was accepted. -/
def accept_media_type (accept : String) (mediatypes : List MimeTypes) :
    Except PyErr (Option MimeTypes) :=
  match acceptValues accept with
  | .error e => .error e
  | .ok vals =>
    match selectFromGroups (mediaPreference vals) mediatypes with
    | some media => .ok (some media)
    | none =>
      if vals.any (fun p => p.1 = "*") ∧ mediatypes ≠ [] then
        .ok mediatypes.head?
      else .ok none

/-- A Python value sitting in one CSV cell: a string or `None`.  `csv.writer`
renders `None` as the empty string. -/
abbrev Cell := Option String

/-- One projected record, as the ordered key/value pairs of a Python dict. -/
abbrev Row := List (String × Cell)

/-- `rowdict.get(key, restval)` with `csv.DictWriter`'s default
`restval=None`: a missing key yields the `None` cell. -/
def rowGet (row : Row) (k : String) : Cell :=
  (dictGet row k).getD none

/-- Rendered text of one cell (`None` → empty string). -/
def cellStr : Cell → String
  | none => ""
  | some s => s

/-- `QUOTE_MINIMAL`: a field is quoted when it contains the delimiter, the
quote character, or a CR/LF. -/
def needsQuote (s : String) : Bool :=
  s.toList.any (fun c => c = ',' ∨ c = '"' ∨ c = '\r' ∨ c = '\n')

/-- Apply minimal quoting to one field (embedded quotes are doubled). -/
def quoteField (s : String) : String :=
  if needsQuote s then
    "\"" ++ String.mk (s.toList.flatMap (fun c => if c = '"' then ['"', '"'] else [c])) ++ "\""
  else s

/-- Join rendered fields with the `,` delimiter. -/
def joinComma : List String → String
  | [] => ""
  | [x] => x
  | x :: xs => x ++ "," ++ joinComma xs

/-- `csv.writer.writerow` with the default dialect: minimal quoting, `\r\n`
line terminator; a row consisting of a single empty field is written as
`""` so that it is distinguishable from a blank line. -/
def writeRow (cells : List Cell) : String :=
  match cells with
  | [c] => if cellStr c = "" then "\"\"" ++ "\r\n" else quoteField (cellStr c) ++ "\r\n"
  | _ => joinComma (cells.map (fun c => quoteField (cellStr c))) ++ "\r\n"

/-- `csv.DictWriter._dict_to_list` with the default `extrasaction="raise"`
and `restval=None`: a key outside the fieldnames raises `ValueError`;
missing keys are filled with `None`. -/
def dictToList (fieldnames : List String) (row : Row) : Except PyErr (List Cell) :=
  if row.any (fun p => ¬ fieldnames.contains p.1) then .error .valueError
  else .ok (fieldnames.map (rowGet row))

/-- What a lazily-pulled stream produced: the chunks flushed before the
stream either finished (`error = none`) or raised (`error = some e`). -/
structure StreamResult where
  chunks : List String
  error : Option PyErr
deriving DecidableEq, Repr

/-- The trailing loop of `_create_csv_rows`: write one row per remaining
record, stopping at the first upstream error or schema violation. -/
def csvLoop (fieldnames : List String) : List (Except PyErr Row) → StreamResult
  | [] => ⟨[], none⟩
  | .error e :: _ => ⟨[], some e⟩
  | .ok row :: rest =>
    match dictToList fieldnames row with
    | .error e => ⟨[], some e⟩
    | .ok cells =>
      let r := csvLoop fieldnames rest
      ⟨writeRow cells :: r.chunks, r.error⟩

/-- `_create_csv_rows(data)` from `client.py`, consuming a fallible row
source.  `row = next(data)` on an empty source raises `StopIteration`,
which PEP 479 converts to `RuntimeError`; the first row's keys become the
fieldnames; the header is `writerow(dict(zip(fieldnames, fieldnames)))`;
then the first row and every remaining row are written. -/
def create_csv_rows (data : List (Except PyErr Row)) : StreamResult :=
  match data with
  | [] => ⟨[], some .runtimeError⟩
  | .error e :: _ => ⟨[], some e⟩
  | .ok row :: rest =>
    let fieldnames := row.map Prod.fst
    let header := writeRow (fieldnames.map (fun k => some k))
    match dictToList fieldnames row with
    | .error e => ⟨[header], some e⟩
    | .ok cells =>
      let r := csvLoop fieldnames rest
      ⟨header :: writeRow cells :: r.chunks, r.error⟩

/-- A parsed geometry object of the external `geojson_pydantic` library,
seen through the only interface the code uses: its `.wkt` string. -/
structure Geometry where
  wkt : String
deriving DecidableEq, Repr

/-- One feature dict, restricted to the keys `items_to_csv_rows` reads.
`geometry = none` models a dict without the key; `geometry = some none`
models the key present with value `None`. -/
structure Record where
  id : Option String
  collection : Option String
  properties : List (String × Cell)
  geometry : Option (Option Geometry)
deriving DecidableEq, Repr

/-- `f.get("geometry", None) is not None`. -/
def hasGeom (f : Record) : Bool :=
  match f.geometry with
  | some (some _) => true
  | _ => false

/-- The row built in the geometry-free branch of `items_to_csv_rows`:
`{"itemId": f.get("id"), "collectionId": f.get("collection"),
**f.get("properties", {})}`, with Python dict-literal insertion order. -/
def projectNoGeo (f : Record) : Row :=
  f.properties.foldl (fun d p => dictInsert d p.1 p.2)
    (dictInsert (dictInsert [] "itemId" f.id) "collectionId" f.collection)

/-- The row built in the geometry branch of `items_to_csv_rows`: the same
dict extended with `"geometry": parse_geometry_obj(f["geometry"]).wkt`.
`f["geometry"]` raises `KeyError` when the key is absent, and
`parse_geometry_obj(None)` raises a `ValidationError`. -/
def projectGeo (f : Record) : Except PyErr Row :=
  match f.geometry with
  | none => .error .keyError
  | some none => .error .validationError
  | some (some g) => .ok (dictInsert (projectNoGeo f) "geometry" (some g.wkt))

/-- `items_to_csv_rows(items)` from `client.py`: when any feature carries a
non-null geometry, every feature is projected through the geometry branch;
otherwise all are projected without geometry; the rows then feed
`_create_csv_rows`. -/
def items_to_csv_rows (items : List Record) : StreamResult :=
  if items.any hasGeom then
    create_csv_rows (items.map projectGeo)
  else
    create_csv_rows (items.map (fun f => .ok (projectNoGeo f)))

/-- `[MimeTypes[v] for v in get_args(ResponseType)]` — the media types the
JSON/HTML endpoints (`landing_page`, `conformance`, collections) accept. -/
def ResponseType : List MimeTypes := [.json, .html]

/-- `[MimeTypes[v] for v in get_args(QueryablesResponseType)]`. -/
def QueryablesResponseType : List MimeTypes := [.jsonschema, .html]

/-- `[MimeTypes[v] for v in get_args(GeoResponseType)]`. -/
def GeoResponseType : List MimeTypes := [.geojson, .html]

/-- `[MimeTypes[v] for v in get_args(GeoMultiResponseType)]` — accepted by
`item_collection` and `get_search`. -/
def GeoMultiResponseType : List MimeTypes := [.geojson, .html, .geojsonseq, .csv]

/-- `[MimeTypes[v] for v in get_args(PostMultiResponseType)]` — accepted by
`post_search`. -/
def PostMultiResponseType : List MimeTypes := [.geojson, .geojsonseq, .csv]

/-- The `output_type` resolution shared by every endpoint handler
(`landing_page`, `get_queryables`, `get_search`, ...):
`if f: output_type = MimeTypes[f] else: output_type =
accept_media_type(request.headers.get("accept", ""), accepted_media)`.
Python's `if f:` is false for both `None` and the empty string. -/
def resolve_output_type (f : Option String) (accept : String)
    (supported : List MimeTypes) : Except PyErr (Option MimeTypes) :=
  match f with
  | some s =>
    if s = "" then accept_media_type accept supported
    else (MimeTypes.lookup s).map some
  | none => accept_media_type accept supported

/-- The two ways `landing_page` (and the other JSON/HTML endpoints) can
render. -/
inductive RenderKind where
  | htmlPage | jsonDoc
deriving DecidableEq, Repr

/-- The tail of `landing_page`: an HTML template response exactly when the
resolved output type is `MimeTypes.html`, otherwise the plain (JSON)
document is returned. -/
def landing_render (output : Option MimeTypes) : RenderKind :=
  if output = some .html then .htmlPage else .jsonDoc

/-- One entry of `item_collection["links"]`, restricted to the fields the
header logic reads: `link["rel"]`, `link["href"]`, and (for `post_search`)
`link["body"]["token"]` when present. -/
structure LinkEntry where
  rel : String
  href : String
  bodyToken : Option String
deriving DecidableEq, Repr

/-- `next(filter(lambda link: link["rel"] == "next", links), None)`. -/
def next_link (links : List LinkEntry) : Option LinkEntry :=
  links.find? (fun l => l.rel = "next")

/-- `next(filter(lambda link: link["rel"] in ["prev", "previous"], links), None)`. -/
def prev_link (links : List LinkEntry) : Option LinkEntry :=
  links.find? (fun l => l.rel = "prev" ∨ l.rel = "previous")

/-- One serialized `Link` header entry: `<href>; rel="rel"`. -/
def linkHeaderEntry (l : LinkEntry) : String :=
  "<" ++ l.href ++ ">; rel=" ++ "\"" ++ l.rel ++ "\""

/-- The `additional_headers` dict of `item_collection` / `get_search`: a
single comma-joined `Link` header when a next and/or prev link exists. -/
def additional_headers_get (links : List LinkEntry) : List (String × String) :=
  match next_link links, prev_link links with
  | none, none => []
  | nl, pl =>
    [("Link", joinComma (([nl, pl].filterMap id).map linkHeaderEntry))]

/-- One serialized pagination-token entry of `post_search`:
`<body.token>; rel="rel"`; `link["body"]["token"]` raises `KeyError` when
absent. -/
def tokenHeaderEntry (l : LinkEntry) : Except PyErr String :=
  match l.bodyToken with
  | none => .error .keyError
  | some t => .ok ("<" ++ t ++ ">; rel=" ++ "\"" ++ l.rel ++ "\"")

/-- Serialize the pagination-token entries left to right, propagating the
first `KeyError` (as the generator inside `",".join(...)` would). -/
def tokenEntries : List LinkEntry → Except PyErr (List String)
  | [] => .ok []
  | l :: ls =>
    match tokenHeaderEntry l with
    | .error e => .error e
    | .ok s =>
      match tokenEntries ls with
      | .error e => .error e
      | .ok ss => .ok (s :: ss)

/-- The `additional_headers` dict of `post_search`: a single comma-joined
`Pagination-Token` header when a next and/or prev link exists. -/
def additional_headers_post (links : List LinkEntry) :
    Except PyErr (List (String × String)) :=
  match next_link links, prev_link links with
  | none, none => .ok []
  | nl, pl =>
    match tokenEntries ([nl, pl].filterMap id) with
    | .error e => .error e
    | .ok es => .ok [("Pagination-Token", joinComma es)]

/-- The extra response headers of `get_search` / `item_collection` per
resolved output type: only the CSV and GeoJSON-sequence `StreamingResponse`
branches attach `Content-Disposition` plus `additional_headers`; the HTML,
GeoJSON and JSON returns attach nothing. -/
def get_search_headers (output : Option MimeTypes) (links : List LinkEntry) :
    List (String × String) :=
  if output = some .html then []
  else if output = some .csv then
    ("Content-Disposition", "attachment;filename=items.csv") :: additional_headers_get links
  else if output = some .geojsonseq then
    ("Content-Disposition", "attachment;filename=items.geojson") :: additional_headers_get links
  else []

/-- The extra response headers of `post_search` per resolved output type.
`additional_headers` (and any `KeyError` from a token-less link body) is
computed before the format dispatch, exactly as in the code. -/
def post_search_headers (output : Option MimeTypes) (links : List LinkEntry) :
    Except PyErr (List (String × String)) :=
  match additional_headers_post links with
  | .error e => .error e
  | .ok ah =>
    if output = some .csv then
      .ok (("Content-Disposition", "attachment;filename=items.csv") :: ah)
    else if output = some .geojsonseq then
      .ok (("Content-Disposition", "attachment;filename=items.geojson") :: ah)
    else .ok []

/-- Polygon WKT used by the concrete scenarios (the `.wkt` of a parsed
GeoJSON polygon). -/
def wktEx : String := "POLYGON ((0 0, 1 0, 1 1, 0 0))"

/-- `{id: "a", collection: "c1", geometry: <polygon>}` of concrete
scenario 4. -/
def recA : Record := ⟨some "a", some "c1", [], some (some ⟨wktEx⟩)⟩

/-- `{id: "b", collection: "c1", geometry: <polygon>}` of concrete
scenario 4. -/
def recB : Record := ⟨some "b", some "c1", [], some (some ⟨wktEx⟩)⟩

/-- A record without a geometry key, for the mixed-geometry claim. -/
def recNoGeo : Record := ⟨some "b", some "c1", [], none⟩

/-! ### Helper lemmas -/

theorem mem_of_dictInsert {d : List (String × α)} {k : String} {v : α} {p : String × α}
    (h : p ∈ dictInsert d k v) : p ∈ d ∨ p.2 = v := by
  unfold dictInsert at h
  by_cases hc : d.any (fun q => q.1 = k)
  · rw [if_pos hc] at h
    rw [List.mem_map] at h
    obtain ⟨q, hq, hr⟩ := h
    by_cases he : q.1 = k
    · rw [if_pos he] at hr
      right
      rw [← hr]
    · rw [if_neg he] at hr
      left
      rw [← hr]
      exact hq
  · rw [if_neg hc] at h
    rw [List.mem_append] at h
    rcases h with h | h
    · exact Or.inl h
    · right
      rw [List.mem_singleton] at h
      rw [h]

theorem acceptValuesGo_no_zero :
    ∀ (ms : List String) (acc vals : List (String × PyQ)),
      (∀ p ∈ acc, p.2.1 ≠ 0) → acceptValuesGo ms acc = .ok vals →
      ∀ p ∈ vals, p.2.1 ≠ 0 := by
  intro ms
  induction ms with
  | nil =>
    intro acc vals hacc h
    injection h with h
    rw [← h]
    exact hacc
  | cons m ms ih =>
    intro acc vals hacc h
    cases he : entryParse m with
    | error e =>
      simp only [acceptValuesGo, he] at h
      exact absurd h (by simp)
    | ok nq =>
      simp only [acceptValuesGo, he] at h
      by_cases hz : nq.2.1 = 0
      · rw [if_pos hz] at h
        exact ih _ _ hacc h
      · rw [if_neg hz] at h
        refine ih _ _ ?_ h
        intro p hp
        rcases mem_of_dictInsert hp with h1 | h2
        · exact hacc p h1
        · rw [h2]
          exact hz

theorem selectFromGroups_mem :
    ∀ (gs : List (PyQ × List String)) (s : List MimeTypes) (m : MimeTypes),
      selectFromGroups gs s = some m → m ∈ s := by
  intro gs
  induction gs with
  | nil =>
    intro s m h
    exact absurd h (by simp [selectFromGroups])
  | cons g gs ih =>
    intro s m h
    unfold selectFromGroups at h
    cases hf : s.find? (fun media => g.2.contains media.value) with
    | some m' =>
      rw [hf] at h
      injection h with h
      rw [← h]
      exact List.mem_of_find?_eq_some hf
    | none =>
      rw [hf] at h
      exact ih s m h

theorem selectFromGroups_none
    (gs : List (PyQ × List String)) (s : List MimeTypes)
    (h : ∀ g ∈ gs, ∀ mt ∈ s, mt.value ∉ g.2) :
    selectFromGroups gs s = none := by
  induction gs with
  | nil => rfl
  | cons g gs ih =>
    unfold selectFromGroups
    have hf : s.find? (fun media => g.2.contains media.value) = none := by
      rw [List.find?_eq_none]
      intro mt hmt
      simpa using h g (by simp) mt hmt
    rw [hf]
    exact ih (fun g' hg' => h g' (by simp [hg']))

theorem mediaPreference_names (vals : List (String × PyQ)) :
    ∀ g ∈ mediaPreference vals, ∀ n ∈ g.2, n ∈ vals.map Prod.fst := by
  intro g hg n hn
  unfold mediaPreference at hg
  rw [List.mem_map] at hg
  obtain ⟨v, _, hv⟩ := hg
  rw [← hv] at hn
  simp only [List.mem_map, List.mem_filter] at hn
  obtain ⟨p, ⟨hp, _⟩, hpn⟩ := hn
  rw [← hpn]
  exact List.mem_map_of_mem _ hp

theorem mem_of_head? {l : List α} {a : α} (h : l.head? = some a) : a ∈ l := by
  cases l with
  | nil => exact absurd h (by simp)
  | cons x xs =>
    injection h with h
    rw [← h]
    exact List.mem_cons_self x xs

/-! ### Claim C3 (empty ResultSet) -/

/-- Claim C3, settled against the code: CSV encoding of an empty ResultSet
does emit no header row and no data bytes, but it does not complete an
empty stream — `row = next(data)` raises `StopIteration`, which PEP 479
turns into `RuntimeError` as soon as the first chunk is pulled.  The claim
(and the spec's documented edge case, an empty output) describes the
clearly intended pre-PEP-479 behavior of this idiom; the code errors
instead. -/
theorem C3_empty_resultset :
    items_to_csv_rows [] = ⟨[], some .runtimeError⟩ ∧
    create_csv_rows [] = ⟨[], some .runtimeError⟩ := by
  constructor <;> rfl

/-! ### Claim C9 (negotiation never selects outside the supported set) -/

/-- Counterexample for claim C9 as stated: `accept_media_type` does not
return a member-or-`None` for *every* header string — a parameter without
`=` makes `dict([param.split("=") ...])` raise `ValueError`, so the call
raises instead of returning. -/
theorem C9_counterexample :
    accept_media_type "text/html;a" [MimeTypes.html] = .error .valueError := by
  decide

/-- Claim C9, amended: whenever `accept_media_type` returns at all (no
`ValueError` from a malformed parameter), the result is `None` or a member
of the supplied `mediatypes` list; it never selects outside that set. -/
theorem C9_membership (accept : String) (supported : List MimeTypes)
    (res : Option MimeTypes)
    (h : accept_media_type accept supported = .ok res) :
    res = none ∨ ∃ m, res = some m ∧ m ∈ supported := by
  cases hv : acceptValues accept with
  | error e =>
    simp only [accept_media_type, hv] at h
    exact absurd h (by simp)
  | ok vals =>
    simp only [accept_media_type, hv] at h
    cases hs : selectFromGroups (mediaPreference vals) supported with
    | some m =>
      simp only [hs] at h
      injection h with h
      exact Or.inr ⟨m, h.symm, selectFromGroups_mem _ _ _ hs⟩
    | none =>
      simp only [hs] at h
      by_cases hw : ((vals.any (fun p => p.1 = "*")) = true ∧ supported ≠ [])
      · rw [if_pos hw] at h
        injection h with h
        cases hh : supported.head? with
        | none =>
          rw [hh] at h
          exact Or.inl h.symm
        | some m =>
          rw [hh] at h
          exact Or.inr ⟨m, h.symm, mem_of_head? hh⟩
      · rw [if_neg hw] at h
        injection h with h
        exact Or.inl h.symm

/-- Witness for `C9_membership` at a concrete input. -/
theorem C9_witness :
    (some MimeTypes.json = none ∨
      ∃ m, some MimeTypes.json = some m ∧ m ∈ [MimeTypes.json, MimeTypes.html]) :=
  C9_membership "application/json" [MimeTypes.json, MimeTypes.html]
    (some MimeTypes.json) (by decide)

/-! ### Claim C2 (wildcard fallback) -/

/-- Counterexample for claim C2 as stated: `Accept: */*` with
`supported = [geojson, html, csv]` selects nothing — the code's wildcard
fallback tests the literal key `"*"` only, and `"*/*"` is not retained as a
wildcard sentinel, so the concrete scenario returns `None` instead of
`geojson`. -/
theorem C2_counterexample :
    accept_media_type "*/*" [MimeTypes.geojson, MimeTypes.html, MimeTypes.csv]
      = .ok none := by
  decide

/-- Claim C2, amended: the fallback to the first supported entry fires for a
bare `*` token (not `*/*`): if parsing succeeds, the key `"*"` was accepted,
no accepted name matches any supported media type's value, and the supported
list is nonempty, then `accept_media_type` returns the first supported
entry. -/
theorem C2_wildcard_amended (accept : String) (vals : List (String × PyQ))
    (m : MimeTypes) (rest : List MimeTypes)
    (hv : acceptValues accept = .ok vals)
    (hw : "*" ∈ vals.map Prod.fst)
    (hnm : ∀ mt ∈ m :: rest, mt.value ∉ vals.map Prod.fst) :
    accept_media_type accept (m :: rest) = .ok (some m) := by
  have hsel : selectFromGroups (mediaPreference vals) (m :: rest) = none := by
    apply selectFromGroups_none
    intro g hg mt hmt hin
    exact hnm mt hmt (mediaPreference_names vals g hg _ hin)
  have hany : (vals.any (fun p => p.1 = "*")) = true := by
    rw [List.any_eq_true]
    rw [List.mem_map] at hw
    obtain ⟨p, hp, hpw⟩ := hw
    exact ⟨p, hp, by simp [hpw]⟩
  simp only [accept_media_type, hv, hsel, hany]
  rfl

/-- Witness for `C2_wildcard_amended`: `Accept: *` with
`supported = [geojson, html, csv]` selects `geojson`. -/
theorem C2_witness :
    accept_media_type "*" [MimeTypes.geojson, MimeTypes.html, MimeTypes.csv]
      = .ok (some MimeTypes.geojson) :=
  C2_wildcard_amended "*" [("*", (1, 1))] MimeTypes.geojson
    [MimeTypes.html, MimeTypes.csv] (by decide) (by decide) (by decide)

/-! ### Claim C1 (explicit `f` override) -/

/-- Counterexample for claim C1 as stated: `f=csv` on an endpoint whose
supported set is `ResponseType = [json, html]` does not fail — `MimeTypes[f]`
only checks that the name exists in the global enumeration, so the value
`csv`, although outside the endpoint's supported set, is resolved without
any `UnsupportedFormat`-style error. -/
theorem C1_counterexample :
    resolve_output_type (some "csv") "text/html" ResponseType = .ok (some .csv) ∧
    MimeTypes.csv ∉ ResponseType := by
  decide

/-- Claim C1, amended: a non-empty `f` wins unconditionally — the result
does not depend on the `Accept` header or on the endpoint's supported list
at all; a known name outside the supported set is accepted without error,
after which the endpoint falls through to its default non-HTML rendering;
an entirely unknown name raises `KeyError` (a server error), not an
`UnsupportedFormat` client error. -/
theorem C1_explicit_override (s accept accept' : String)
    (supported supported' : List MimeTypes) (hs : s ≠ "") :
    resolve_output_type (some s) accept supported
      = resolve_output_type (some s) accept' supported' ∧
    resolve_output_type (some "csv") accept ResponseType = .ok (some .csv) ∧
    landing_render (some .csv) = .jsonDoc ∧
    MimeTypes.lookup "notaformat" = .error .keyError := by
  refine ⟨?_, ?_, by decide, by decide⟩
  · simp only [resolve_output_type]
    rw [if_neg hs, if_neg hs]
  · simp only [resolve_output_type]
    rw [if_neg (by decide : ¬ ("csv" : String) = "")]
    decide

/-- Witness for `C1_explicit_override` at a concrete input. -/
theorem C1_witness :
    resolve_output_type (some "csv") "text/html" [MimeTypes.json, MimeTypes.html]
      = resolve_output_type (some "csv") "application/json" [MimeTypes.jsonschema] ∧
    resolve_output_type (some "csv") "text/html" ResponseType = .ok (some .csv) ∧
    landing_render (some .csv) = .jsonDoc ∧
    MimeTypes.lookup "notaformat" = .error .keyError :=
  C1_explicit_override "csv" "text/html" "application/json"
    [MimeTypes.json, MimeTypes.html] [MimeTypes.jsonschema] (by decide)

/-! ### Claim C6 (malformed `q` values) -/

/-- Counterexample for claim C6 as stated: `Accept: text/html;q=` has a `q`
parameter that is present and non-numeric (`float("")` raises
`ValueError`), yet the parser assigns quality `1`, not `0` — Python's
`float(q) if q else 1.0` treats the falsy empty value as "no quality
given", so the entry is kept rather than dropped. -/
theorem C6_counterexample :
    parsePyFloat "" = none ∧
    entryParse "text/html;q=" = .ok ("text/html", (1, 1)) := by
  decide

/-- Claim C6, amended: an entry whose `q` parameter is present with a
non-empty value on which `float` fails gets quality `0`, without raising
(local recovery); and every entry reaching the `accept_values` dict has
nonzero quality — quality-`0` entries are dropped before grouping.  (An
empty `q` value is instead treated as if `q` were absent, giving
quality `1`.) -/
theorem C6_malformed_q (m name qp v accept : String) (vals : List (String × PyQ)) :
    (pySplit ';' m = [name, qp] → pySplit '=' qp = ["q", v] → v ≠ "" →
      parsePyFloat v = none → entryParse m = .ok (name, (0, 1))) ∧
    (acceptValues accept = .ok vals → ∀ p ∈ vals, p.2.1 ≠ 0) := by
  constructor
  · intro h1 h2 h3 h4
    unfold entryParse
    rw [h1]
    simp only [parseParams, h2]
    simp only [dictInsert, dictGet, List.any_nil, List.find?]
    simp [if_neg h3, h4]
  · intro h
    exact acceptValuesGo_no_zero _ [] vals (by simp) h

/-- Witness for `C6_malformed_q` at concrete inputs: `text/html;q=abc` is
parsed with quality `0` and no error, and in the full header it is dropped
from `accept_values`. -/
theorem C6_witness :
    entryParse "text/html;q=abc" = .ok ("text/html", (0, 1)) ∧
    ∀ p ∈ [(("application/json" : String), ((1, 1) : PyQ))], p.2.1 ≠ 0 :=
  ⟨(C6_malformed_q "text/html;q=abc" "text/html" "q=abc" "abc" "" []).1
      (by decide) (by decide) (by decide) (by decide),
    (C6_malformed_q "" "" "" "" "text/html;q=abc,application/json"
        [("application/json", (1, 1))]).2 (by decide)⟩

/-! ### CSV lemmas for claims C4 and C10 -/

theorem dictToList_ok_of_sub {fn : List String} {row : Row}
    (h : ∀ k ∈ row.map Prod.fst, k ∈ fn) :
    dictToList fn row = .ok (fn.map (rowGet row)) := by
  have hc : (row.any fun p => ¬ fn.contains p.1) = false := by
    rw [List.any_eq_false]
    intro p hp
    simp [h p.1 (List.mem_map_of_mem _ hp)]
  unfold dictToList
  rw [hc]
  simp

theorem dictToList_err_of_extra {fn : List String} {row : Row}
    (h : ∃ k ∈ row.map Prod.fst, k ∉ fn) :
    dictToList fn row = .error .valueError := by
  have hc : (row.any fun p => ¬ fn.contains p.1) = true := by
    rw [List.any_eq_true]
    obtain ⟨k, hk, hkn⟩ := h
    rw [List.mem_map] at hk
    obtain ⟨p, hp, hpk⟩ := hk
    refine ⟨p, hp, ?_⟩
    rw [hpk]
    simp [hkn]
  unfold dictToList
  rw [hc]
  simp

theorem csvLoop_error_isSome (fn : List String) :
    ∀ (l : List (Except PyErr Row)), (∃ e, Except.error e ∈ l) →
      ((csvLoop fn l).error).isSome = true := by
  intro l
  induction l with
  | nil =>
    rintro ⟨e, he⟩
    simp at he
  | cons x xs ih =>
    rintro ⟨e, he⟩
    cases x with
    | error e' => simp [csvLoop]
    | ok row =>
      have hmem : Except.error e ∈ xs := by
        rcases List.mem_cons.mp he with h | h
        · exact absurd h (by simp)
        · exact h
      cases hd : dictToList fn row with
      | error e2 => simp [csvLoop, hd]
      | ok cells =>
        simp only [csvLoop, hd]
        exact ih ⟨e, hmem⟩

theorem create_error_isSome (data : List (Except PyErr Row))
    (h : ∃ e, Except.error e ∈ data) :
    ((create_csv_rows data).error).isSome = true := by
  cases data with
  | nil =>
    obtain ⟨e, he⟩ := h
    simp at he
  | cons x xs =>
    cases x with
    | error e' => simp [create_csv_rows]
    | ok row =>
      obtain ⟨e, he⟩ := h
      have hmem : Except.error e ∈ xs := by
        rcases List.mem_cons.mp he with h' | h'
        · exact absurd h' (by simp)
        · exact h'
      simp only [create_csv_rows, dictToList_ok_of_sub (fun k hk => hk)]
      exact csvLoop_error_isSome _ xs ⟨e, hmem⟩

theorem csvLoop_front_rows (fn : List String) :
    ∀ (pre : List Row) (r : Row) (rest : List (Except PyErr Row)),
      (∀ p ∈ pre, ∀ k ∈ p.map Prod.fst, k ∈ fn) →
      (∃ k ∈ r.map Prod.fst, k ∉ fn) →
      csvLoop fn (pre.map .ok ++ .ok r :: rest)
        = ⟨pre.map (fun p => writeRow (fn.map (rowGet p))), some .valueError⟩ := by
  intro pre
  induction pre with
  | nil =>
    intro r rest _ hr
    simp only [List.map_nil, List.nil_append]
    simp [csvLoop, dictToList_err_of_extra hr]
  | cons p ps ih =>
    intro r rest hpre hr
    simp only [List.map_cons, List.cons_append]
    simp only [csvLoop, dictToList_ok_of_sub (hpre p (by simp))]
    rw [ih r rest (fun q hq => hpre q (by simp [hq])) hr]

/-! ### Claim C4 (inconsistent CSV schema) -/

/-- Counterexample for claim C4 as stated: a later record whose column set
is incompatible with the header — here record 2 is *missing* column `b` of
record 1 — does not make the encoder fail: `csv.DictWriter`'s default
`restval` silently fills the missing field with the empty string and the
row `"3,"` is flushed, the stream finishing without error. -/
theorem C4_counterexample :
    create_csv_rows [.ok [("a", some "1"), ("b", some "2")], .ok [("a", some "3")]]
      = ⟨["a,b\r\n", "1,2\r\n", "3,\r\n"], none⟩ := by
  decide

/-- Claim C4, amended: only a later record with an *extra* column (a key
outside the header established by the first record) makes the encoder fail
— `DictWriter.writerow` raises `ValueError` (the `InconsistentSchema` role)
before that record's row is flushed, so no partial row reaches the output;
later records merely *missing* header columns are not an error: the missing
fields are silently filled with the empty string and their rows are
emitted. -/
theorem C4_schema (r0 : Row) (pre : List Row) (r : Row)
    (rest : List (Except PyErr Row))
    (hpre : ∀ p ∈ pre, ∀ k ∈ p.map Prod.fst, k ∈ r0.map Prod.fst)
    (hr : ∃ k ∈ r.map Prod.fst, k ∉ r0.map Prod.fst) :
    create_csv_rows (.ok r0 :: (pre.map .ok ++ .ok r :: rest))
      = ⟨writeRow ((r0.map Prod.fst).map (fun k => some k))
          :: writeRow ((r0.map Prod.fst).map (rowGet r0))
          :: pre.map (fun p => writeRow ((r0.map Prod.fst).map (rowGet p))),
         some .valueError⟩ := by
  simp only [create_csv_rows, dictToList_ok_of_sub (fun k hk => hk)]
  rw [csvLoop_front_rows _ pre r rest hpre hr]

/-- Witness for `C4_schema`: header `a,b` from record 1; record 2 (missing
`b`) is flushed as `"3,"`; record 3 brings the extra column `c` and the
stream stops with `ValueError` before its row is written. -/
theorem C4_witness :
    create_csv_rows [.ok [("a", some "1"), ("b", some "2")],
        .ok [("a", some "3")], .ok [("a", some "4"), ("c", some "5")]]
      = ⟨["a,b\r\n", "1,2\r\n", "3,\r\n"], some .valueError⟩ :=
  (C4_schema [("a", some "1"), ("b", some "2")] [[("a", some "3")]]
      [("a", some "4"), ("c", some "5")] [] (by decide) (by decide)).trans
    (by decide)

/-! ### Claim C10 (mixed geometry sequences) -/

theorem projectGeo_err {r : Record} (h : hasGeom r = false) :
    ∃ e, projectGeo r = .error e := by
  unfold projectGeo
  cases hg : r.geometry with
  | none => exact ⟨.keyError, rfl⟩
  | some o =>
    cases o with
    | none => exact ⟨.validationError, rfl⟩
    | some g =>
      unfold hasGeom at h
      rw [hg] at h
      simp at h

/-- Claim C10: when at least one record of the sequence has a non-null
geometry, `items_to_csv_rows` projects *every* record through the geometry
branch (which reads `f["geometry"]` unconditionally), so a sequence mixing
a geometry-bearing record with a record lacking (or having a null) geometry
errors while streaming instead of emitting a geometry-less row. -/
theorem C10_mixed_geometry (items : List Record) (r0 : Record)
    (hany : items.any hasGeom = true) (hmem : r0 ∈ items)
    (hng : hasGeom r0 = false) :
    items_to_csv_rows items = create_csv_rows (items.map projectGeo) ∧
    ((items_to_csv_rows items).error).isSome = true := by
  have heq : items_to_csv_rows items = create_csv_rows (items.map projectGeo) := by
    unfold items_to_csv_rows
    rw [if_pos hany]
  refine ⟨heq, ?_⟩
  rw [heq]
  obtain ⟨e, hpe⟩ := projectGeo_err hng
  refine create_error_isSome _ ⟨e, ?_⟩
  rw [← hpe]
  exact List.mem_map_of_mem _ hmem

/-- Witness for `C10_mixed_geometry`: one record with a polygon and one
without a geometry key; the encoder's branch is the geometry branch and the
stream errors. -/
theorem C10_witness :
    items_to_csv_rows [recA, recNoGeo]
      = create_csv_rows ([recA, recNoGeo].map projectGeo) ∧
    ((items_to_csv_rows [recA, recNoGeo]).error).isSome = true :=
  C10_mixed_geometry [recA, recNoGeo] recNoGeo (by decide) (by decide) (by decide)

/-! ### Claim C7 (row projection and concrete CSV scenario) -/

theorem dictInsert_append {d : List (String × α)} {k : String} {v : α}
    (h : k ∉ d.map Prod.fst) : dictInsert d k v = d ++ [(k, v)] := by
  unfold dictInsert
  rw [if_neg]
  intro hc
  rw [List.any_eq_true] at hc
  obtain ⟨p, hp, hpk⟩ := hc
  have hpk' : p.1 = k := by simpa using hpk
  exact h (hpk' ▸ List.mem_map_of_mem Prod.fst hp)

theorem foldl_dictInsert (props : List (String × Cell)) :
    ∀ (d : List (String × Cell)),
      (props.map Prod.fst).Nodup →
      (∀ k ∈ props.map Prod.fst, k ∉ d.map Prod.fst) →
      props.foldl (fun acc p => dictInsert acc p.1 p.2) d = d ++ props := by
  induction props with
  | nil =>
    intro d _ _
    simp
  | cons p ps ih =>
    intro d hnd hdisj
    simp only [List.map_cons, List.nodup_cons] at hnd
    simp only [List.foldl_cons]
    rw [dictInsert_append (hdisj p.1 (by simp))]
    rw [ih (d ++ [p]) hnd.2 ?_]
    · simp
    · intro k hk
      simp only [List.map_append, List.mem_append, List.map_cons, List.map_nil,
        List.mem_singleton, not_or]
      constructor
      · exact hdisj k (by simp [hk])
      · intro hkp
        exact hnd.1 (hkp ▸ hk)

theorem projectNoGeo_eq (r : Record)
    (hnd : (r.properties.map Prod.fst).Nodup)
    (hdisj : ∀ k ∈ r.properties.map Prod.fst, k ≠ "itemId" ∧ k ≠ "collectionId") :
    projectNoGeo r = [("itemId", r.id), ("collectionId", r.collection)]
      ++ r.properties := by
  unfold projectNoGeo
  have h1 : dictInsert ([] : List (String × Cell)) "itemId" r.id
      = [("itemId", r.id)] := by
    rw [dictInsert_append (by simp)]
    simp
  have hbase : dictInsert (dictInsert [] "itemId" r.id) "collectionId" r.collection
      = [("itemId", r.id), ("collectionId", r.collection)] := by
    rw [h1]
    rw [dictInsert_append (by simp)]
    rfl
  rw [hbase]
  refine foldl_dictInsert r.properties _ hnd ?_
  intro k hk
  have hne := hdisj k hk
  simp [hne.1, hne.2]

theorem projectGeo_eq (r : Record) (g : Geometry)
    (hg : r.geometry = some (some g))
    (hnd : (r.properties.map Prod.fst).Nodup)
    (hdisj : ∀ k ∈ r.properties.map Prod.fst,
      k ≠ "itemId" ∧ k ≠ "collectionId" ∧ k ≠ "geometry") :
    projectGeo r = .ok ([("itemId", r.id), ("collectionId", r.collection)]
        ++ r.properties ++ [("geometry", some g.wkt)]) := by
  simp only [projectGeo, hg]
  rw [projectNoGeo_eq r hnd (fun k hk => ⟨(hdisj k hk).1, (hdisj k hk).2.1⟩)]
  have hgeom : "geometry" ∉ ([("itemId", r.id), ("collectionId", r.collection)]
      ++ r.properties).map Prod.fst := by
    rw [List.map_append, List.mem_append]
    rintro (h | h)
    · simp at h
    · exact (hdisj _ h).2.2 rfl
  rw [dictInsert_append hgeom]

/-- Claim C7: the CSV row projection emits the identity columns `itemId`
and `collectionId` first, in that order, then the record's property fields,
and replaces a present geometry with a single `geometry` column holding its
WKT string; and concrete scenario 4 — two records
`{id: "a"/"b", collection: "c1", geometry: <polygon>}` — encodes as the
header `itemId,collectionId,geometry` followed by two data rows with
(quoted) WKT strings. -/
theorem C7_projection (r : Record) (g : Geometry) :
    (r.geometry = some (some g) →
      (r.properties.map Prod.fst).Nodup →
      (∀ k ∈ r.properties.map Prod.fst,
        k ≠ "itemId" ∧ k ≠ "collectionId" ∧ k ≠ "geometry") →
      projectGeo r = .ok ([("itemId", r.id), ("collectionId", r.collection)]
          ++ r.properties ++ [("geometry", some g.wkt)])) ∧
    items_to_csv_rows [recA, recB]
      = ⟨["itemId,collectionId,geometry\r\n",
          "a,c1," ++ "\"" ++ wktEx ++ "\"" ++ "\r\n",
          "b,c1," ++ "\"" ++ wktEx ++ "\"" ++ "\r\n"], none⟩ :=
  ⟨fun hg hnd hdisj => projectGeo_eq r g hg hnd hdisj, by decide⟩

/-- Witness for `C7_projection` at the concrete record of scenario 4. -/
theorem C7_witness :
    projectGeo recA = .ok [("itemId", some "a"), ("collectionId", some "c1"),
      ("geometry", some wktEx)] ∧
    items_to_csv_rows [recA, recB]
      = ⟨["itemId,collectionId,geometry\r\n",
          "a,c1," ++ "\"" ++ wktEx ++ "\"" ++ "\r\n",
          "b,c1," ++ "\"" ++ wktEx ++ "\"" ++ "\r\n"], none⟩ :=
  ⟨((C7_projection recA ⟨wktEx⟩).1 rfl (by decide) (by decide)).trans (by decide),
    (C7_projection recA ⟨wktEx⟩).2⟩

/-! ### Claim C8 (pagination headers) -/

theorem additional_headers_get_eq (links : List LinkEntry) (n p : LinkEntry)
    (hn : next_link links = some n) (hp : prev_link links = some p) :
    additional_headers_get links
      = [("Link", linkHeaderEntry n ++ "," ++ linkHeaderEntry p)] := by
  unfold additional_headers_get
  rw [hn, hp]
  simp [joinComma]

theorem additional_headers_post_eq (links : List LinkEntry) (n p : LinkEntry)
    (tn tp : String) (hn : next_link links = some n) (hp : prev_link links = some p)
    (htn : n.bodyToken = some tn) (htp : p.bodyToken = some tp) :
    additional_headers_post links
      = .ok [("Pagination-Token",
          ("<" ++ tn ++ ">; rel=" ++ "\"" ++ n.rel ++ "\"") ++ ","
            ++ ("<" ++ tp ++ ">; rel=" ++ "\"" ++ p.rel ++ "\""))] := by
  unfold additional_headers_post
  rw [hn, hp]
  simp [tokenEntries, tokenHeaderEntry, htn, htp, joinComma]

/-- Counterexample for claim C8 as stated: a GET-search result carrying
both a `next` and a `prev` link, dispatched in the (non-HTML) `geojson`
format, carries no `Link` header at all — the code attaches
`additional_headers` only to the CSV and GeoJSON-sequence
`StreamingResponse` branches, and the plain GeoJSON/JSON return sets no
extra headers. -/
theorem C8_counterexample :
    get_search_headers (some .geojson)
      [⟨"next", "http://e/search?a=1", some "t1"⟩,
       ⟨"prev", "http://e/search?a=0", some "t0"⟩] = [] := by
  decide

/-- Claim C8, amended: when a result carries both a `next` and a `prev`
link, the CSV and GeoJSON-sequence responses of `get_search` /
`item_collection` carry a single `Link` header of two comma-joined
`<url>; rel="relation"` entries (next first), after the
`Content-Disposition` header; `geojson` (and default) responses carry no
extra headers; and `post_search`'s streaming responses instead carry a
`Pagination-Token` header built from the links' `body.token` values. -/
theorem C8_link_headers (links : List LinkEntry) (n p : LinkEntry)
    (hn : next_link links = some n) (hp : prev_link links = some p) :
    get_search_headers (some .csv) links
      = [("Content-Disposition", "attachment;filename=items.csv"),
         ("Link", linkHeaderEntry n ++ "," ++ linkHeaderEntry p)] ∧
    get_search_headers (some .geojsonseq) links
      = [("Content-Disposition", "attachment;filename=items.geojson"),
         ("Link", linkHeaderEntry n ++ "," ++ linkHeaderEntry p)] ∧
    get_search_headers (some .geojson) links = [] ∧
    get_search_headers none links = [] ∧
    (∀ tn tp, n.bodyToken = some tn → p.bodyToken = some tp →
      post_search_headers (some .csv) links
        = .ok [("Content-Disposition", "attachment;filename=items.csv"),
               ("Pagination-Token",
                 ("<" ++ tn ++ ">; rel=" ++ "\"" ++ n.rel ++ "\"") ++ ","
                   ++ ("<" ++ tp ++ ">; rel=" ++ "\"" ++ p.rel ++ "\""))]) := by
  refine ⟨?_, ?_, by simp [get_search_headers], by simp [get_search_headers], ?_⟩
  · simp [get_search_headers, additional_headers_get_eq links n p hn hp]
  · simp [get_search_headers, additional_headers_get_eq links n p hn hp]
  · intro tn tp htn htp
    unfold post_search_headers
    rw [additional_headers_post_eq links n p tn tp hn hp htn htp]
    simp

/-- Witness for `C8_link_headers` at a concrete pair of links. -/
theorem C8_witness :
    get_search_headers (some .csv)
        [⟨"next", "http://e/s?t=1", some "t1"⟩, ⟨"prev", "http://e/s?t=0", some "t0"⟩]
      = [("Content-Disposition", "attachment;filename=items.csv"),
         ("Link", "<http://e/s?t=1>; rel=" ++ "\"next\"" ++ ",<http://e/s?t=0>; rel="
            ++ "\"prev\"")] ∧
    post_search_headers (some .csv)
        [⟨"next", "http://e/s?t=1", some "t1"⟩, ⟨"prev", "http://e/s?t=0", some "t0"⟩]
      = .ok [("Content-Disposition", "attachment;filename=items.csv"),
             ("Pagination-Token", "<t1>; rel=" ++ "\"next\"" ++ ",<t0>; rel="
                ++ "\"prev\"")] := by
  have h := C8_link_headers
    [⟨"next", "http://e/s?t=1", some "t1"⟩, ⟨"prev", "http://e/s?t=0", some "t0"⟩]
    ⟨"next", "http://e/s?t=1", some "t1"⟩ ⟨"prev", "http://e/s?t=0", some "t0"⟩
    (by decide) (by decide)
  exact ⟨h.1.trans (by decide), (h.2.2.2.2 "t1" "t0" rfl rfl).trans (by decide)⟩

/-! ### Ordering lemmas for claim C5 -/

theorem pyqLe_of_lt {a b : PyQ} (h : pyqLt a b = true) : pyqLe a b = true := by
  unfold pyqLt at h
  unfold pyqLe
  rw [decide_eq_true_eq] at h ⊢
  exact le_of_lt h

theorem pyqLe_of_not_lt {a b : PyQ} (h : ¬ pyqLt a b = true) : pyqLe b a = true := by
  unfold pyqLt at h
  unfold pyqLe
  rw [decide_eq_true_eq] at h ⊢
  exact le_of_not_lt h

theorem pyqLe_trans {a b c : PyQ} (hb : 0 < b.2)
    (h1 : pyqLe a b = true) (h2 : pyqLe b c = true) : pyqLe a c = true := by
  unfold pyqLe at h1 h2 ⊢
  rw [decide_eq_true_eq] at h1 h2 ⊢
  have hc2 : (0 : Int) ≤ (c.2 : Int) := Int.natCast_nonneg _
  have ha2 : (0 : Int) ≤ (a.2 : Int) := Int.natCast_nonneg _
  have hb2 : (0 : Int) < (b.2 : Int) := by exact_mod_cast hb
  have h1' := mul_le_mul_of_nonneg_right h1 hc2
  have h2' := mul_le_mul_of_nonneg_right h2 ha2
  have key : a.1 * (c.2 : Int) * (b.2 : Int) ≤ c.1 * (a.2 : Int) * (b.2 : Int) := by
    ring_nf at h1' h2' ⊢
    linarith
  exact le_of_mul_le_mul_right key hb2

theorem pyqEq_symm_false {a b : PyQ} (h : pyqEq a b = false) : pyqEq b a = false := by
  unfold pyqEq at h ⊢
  rw [decide_eq_false_iff_not] at h ⊢
  intro hc
  exact h hc.symm

theorem pyqLt_of_le_ne {a b : PyQ} (h1 : pyqLe a b = true) (h2 : pyqEq a b = false) :
    pyqLt a b = true := by
  unfold pyqLe at h1
  unfold pyqEq at h2
  unfold pyqLt
  rw [decide_eq_true_eq] at h1 ⊢
  rw [decide_eq_false_iff_not] at h2
  exact lt_of_le_of_ne h1 h2

theorem mem_insertDescPyQ {x y : PyQ} :
    ∀ {l : List PyQ}, y ∈ insertDescPyQ x l → y = x ∨ y ∈ l := by
  intro l
  induction l with
  | nil =>
    intro h
    simp [insertDescPyQ] at h
    exact Or.inl h
  | cons z zs ih =>
    intro h
    unfold insertDescPyQ at h
    by_cases hlt : pyqLt z x = true
    · rw [if_pos hlt] at h
      rcases List.mem_cons.mp h with h' | h'
      · exact Or.inl h'
      · exact Or.inr h'
    · rw [if_neg hlt] at h
      rcases List.mem_cons.mp h with h' | h'
      · exact Or.inr (h' ▸ List.mem_cons_self z zs)
      · rcases ih h' with h'' | h''
        · exact Or.inl h''
        · exact Or.inr (List.mem_cons_of_mem z h'')

theorem insertDescPyQ_sorted {x : PyQ} :
    ∀ {l : List PyQ}, (∀ z ∈ l, 0 < z.2) →
      l.Pairwise (fun a b => pyqLe b a = true) →
      (insertDescPyQ x l).Pairwise (fun a b => pyqLe b a = true) := by
  intro l
  induction l with
  | nil =>
    intro _ _
    simp [insertDescPyQ]
  | cons y ys ih =>
    intro hpos hs
    rw [List.pairwise_cons] at hs
    unfold insertDescPyQ
    by_cases hlt : pyqLt y x = true
    · rw [if_pos hlt]
      rw [List.pairwise_cons]
      refine ⟨?_, List.pairwise_cons.mpr hs⟩
      intro z hz
      rcases List.mem_cons.mp hz with h' | h'
      · rw [h']
        exact pyqLe_of_lt hlt
      · exact pyqLe_trans (hpos y (by simp)) (hs.1 z h') (pyqLe_of_lt hlt)
    · rw [if_neg hlt]
      rw [List.pairwise_cons]
      constructor
      · intro w hw
        rcases mem_insertDescPyQ hw with h' | h'
        · rw [h']
          exact pyqLe_of_not_lt hlt
        · exact hs.1 w h'
      · exact ih (fun z hz => hpos z (List.mem_cons_of_mem y hz)) hs.2

theorem insertDescPyQ_perm (x : PyQ) :
    ∀ (l : List PyQ), List.Perm (insertDescPyQ x l) (x :: l) := by
  intro l
  induction l with
  | nil => simp [insertDescPyQ]
  | cons y ys ih =>
    unfold insertDescPyQ
    by_cases hlt : pyqLt y x = true
    · rw [if_pos hlt]
    · rw [if_neg hlt]
      exact (List.Perm.cons y ih).trans (List.Perm.swap x y ys)

theorem sortDescPyQ_perm : ∀ (l : List PyQ), List.Perm (sortDescPyQ l) l := by
  intro l
  induction l with
  | nil => simp [sortDescPyQ]
  | cons x xs ih =>
    have : sortDescPyQ (x :: xs) = insertDescPyQ x (sortDescPyQ xs) := rfl
    rw [this]
    exact (insertDescPyQ_perm x (sortDescPyQ xs)).trans (List.Perm.cons x ih)

theorem sortDescPyQ_sorted :
    ∀ (l : List PyQ), (∀ z ∈ l, 0 < z.2) →
      (sortDescPyQ l).Pairwise (fun a b => pyqLe b a = true) := by
  intro l
  induction l with
  | nil =>
    intro _
    simp [sortDescPyQ]
  | cons x xs ih =>
    intro hpos
    have heq : sortDescPyQ (x :: xs) = insertDescPyQ x (sortDescPyQ xs) := rfl
    rw [heq]
    refine insertDescPyQ_sorted ?_ (ih (fun z hz => hpos z (List.mem_cons_of_mem x hz)))
    intro z hz
    exact hpos z (List.mem_cons_of_mem x ((sortDescPyQ_perm xs).mem_iff.mp hz))

theorem dedupPyQ_go_pairwise :
    ∀ (l acc : List PyQ),
      acc.Pairwise (fun a b => pyqEq a b = false) →
      (l.foldl (fun acc x => if acc.any (fun y => pyqEq y x) then acc else acc ++ [x])
          acc).Pairwise (fun a b => pyqEq a b = false) := by
  intro l
  induction l with
  | nil =>
    intro acc hacc
    simpa using hacc
  | cons x xs ih =>
    intro acc hacc
    rw [List.foldl_cons]
    apply ih
    by_cases hc : acc.any (fun y => pyqEq y x) = true
    · rw [if_pos hc]
      exact hacc
    · rw [if_neg hc]
      rw [List.pairwise_append]
      refine ⟨hacc, by simp, ?_⟩
      intro a ha b hb
      rw [List.mem_singleton] at hb
      rw [Bool.not_eq_true] at hc
      rw [List.any_eq_false] at hc
      rw [hb]
      simpa using hc a ha

theorem dedupPyQ_go_subset :
    ∀ (l acc : List PyQ) (y : PyQ),
      y ∈ l.foldl (fun acc x => if acc.any (fun y => pyqEq y x) then acc else acc ++ [x]) acc →
      y ∈ acc ∨ y ∈ l := by
  intro l
  induction l with
  | nil =>
    intro acc y h
    simp at h
    exact Or.inl h
  | cons x xs ih =>
    intro acc y h
    rw [List.foldl_cons] at h
    rcases ih _ y h with h' | h'
    · by_cases hc : acc.any (fun y => pyqEq y x) = true
      · rw [if_pos hc] at h'
        exact Or.inl h'
      · rw [if_neg hc] at h'
        rcases List.mem_append.mp h' with h'' | h''
        · exact Or.inl h''
        · rw [List.mem_singleton] at h''
          exact Or.inr (h'' ▸ List.mem_cons_self x xs)
    · exact Or.inr (List.mem_cons_of_mem x h')

theorem sortDescDedup_strict (l : List PyQ) (hl : ∀ z ∈ l, 0 < z.2) :
    (sortDescDedup l).Pairwise (fun a b => pyqLt b a = true) := by
  have hd : ∀ z ∈ dedupPyQ l, 0 < z.2 := by
    intro z hz
    rcases dedupPyQ_go_subset l [] z hz with h | h
    · simp at h
    · exact hl z h
  have hsorted := sortDescPyQ_sorted (dedupPyQ l) hd
  have hperm := sortDescPyQ_perm (dedupPyQ l)
  have hsym : Symmetric (fun a b : PyQ => pyqEq a b = false) :=
    fun a b h => pyqEq_symm_false h
  have hne : (sortDescPyQ (dedupPyQ l)).Pairwise (fun a b => pyqEq a b = false) :=
    (hperm.pairwise_iff @hsym).mpr (dedupPyQ_go_pairwise l [] (by simp))
  have := hsorted.and hne
  exact this.imp (fun h => pyqLt_of_le_ne h.1 (pyqEq_symm_false h.2))

theorem mediaPreference_fst (vals : List (String × PyQ)) :
    (mediaPreference vals).map Prod.fst = sortDescDedup (vals.map Prod.snd) := by
  unfold mediaPreference
  rw [List.map_map]
  exact List.map_id _

theorem selectFromGroups_eq_spec :
    ∀ (gs : List (PyQ × List String)) (s : List MimeTypes),
      selectFromGroups gs s = selectorSpecC5 (gs.map Prod.snd) s := by
  intro gs
  induction gs with
  | nil =>
    intro s
    rfl
  | cons g gs ih =>
    intro s
    rw [List.map_cons]
    unfold selectFromGroups selectorSpecC5
    cases hf : s.find? (fun media => g.2.contains media.value) with
    | some m => rfl
    | none => exact ih s

/-! ### Claim C5 (quality-group iteration order) -/

/-- Claim C5: selection iterates quality groups from highest to lowest (the
group keys of the preference matrix are strictly descending), and within a
group it iterates the supported list in declared order, returning the first
media type whose canonical token appears in the group's name set (the code's
loop equals the spec-worded selector on the same groups); concretely,
`Accept: text/html;q=0.8, application/json` with `supported = [json, html]`
selects `json`. -/
theorem C5_group_iteration (vals : List (String × PyQ)) (supported : List MimeTypes)
    (hpos : ∀ p ∈ vals, 0 < p.2.2) :
    ((mediaPreference vals).map Prod.fst).Pairwise (fun a b => pyqLt b a = true) ∧
    selectFromGroups (mediaPreference vals) supported
      = selectorSpecC5 ((mediaPreference vals).map Prod.snd) supported ∧
    accept_media_type "text/html;q=0.8, application/json"
      [MimeTypes.json, MimeTypes.html] = .ok (some MimeTypes.json) := by
  refine ⟨?_, selectFromGroups_eq_spec _ _, by decide⟩
  rw [mediaPreference_fst]
  apply sortDescDedup_strict
  intro z hz
  rw [List.mem_map] at hz
  obtain ⟨p, hp, hpz⟩ := hz
  exact hpz ▸ hpos p hp

/-- Witness for `C5_group_iteration` at the concrete preference matrix of
scenario 1. -/
theorem C5_witness :
    ((mediaPreference [("text/html", ((8, 10) : PyQ)),
        ("application/json", ((1, 1) : PyQ))]).map Prod.fst).Pairwise
      (fun a b => pyqLt b a = true) ∧
    selectFromGroups
        (mediaPreference [("text/html", ((8, 10) : PyQ)),
          ("application/json", ((1, 1) : PyQ))]) [MimeTypes.json, MimeTypes.html]
      = selectorSpecC5
          ((mediaPreference [("text/html", ((8, 10) : PyQ)),
            ("application/json", ((1, 1) : PyQ))]).map Prod.snd)
          [MimeTypes.json, MimeTypes.html] ∧
    accept_media_type "text/html;q=0.8, application/json"
      [MimeTypes.json, MimeTypes.html] = .ok (some MimeTypes.json) :=
  C5_group_iteration [("text/html", (8, 10)), ("application/json", (1, 1))]
    [MimeTypes.json, MimeTypes.html] (by decide)
